import Mathlib

/-!
Verification development for a pair of serverless request handlers that
register students for a cohort-based course in an external document store
and record payment confirmations delivered as payment-processor events.

The embedding is shallow: the external store is a list of records, each
store round trip is reflected as an explicit operation in a trace, and
the flags of `StoreFlags` decide whether a given store call succeeds or
throws.  JavaScript truthiness on optional strings is modelled by
`jsTruthyS` (undefined and the empty string are falsy).
-/

/-- JavaScript truthiness for an optional string: undefined and the empty
string are falsy, every other string is truthy. -/
def jsTruthyS (o : Option String) : Bool := o.getD "" != ""

/-- The JavaScript or-else on two optional strings. -/
def jsOr (a b : Option String) : Option String := if jsTruthyS a then a else b

/-- The JavaScript idiom of an optional string or-else a constant default. -/
def jsOrDefault (a : Option String) (d : String) : String :=
  if jsTruthyS a then a.getD "" else d

/-- The trim applied by the handlers to every input field: drop leading
and trailing whitespace.  JavaScript whitespace is modelled by
`Char.isWhitespace`. -/
def strTrim (s : String) : String :=
  String.mk (((s.data.dropWhile Char.isWhitespace).reverse.dropWhile Char.isWhitespace).reverse)

/-- One chunk of an email address: non-empty and free of whitespace.
JavaScript whitespace in the source pattern is modelled by
`Char.isWhitespace`. -/
def emailChunkOk (l : List Char) : Bool :=
  !l.isEmpty && l.all (fun c => !c.isWhitespace)

/-- Whether a character list contains a dot that is neither the first
character nor the last: the shape required of the domain part by the
email pattern of the source. -/
def innerDot : List Char → Bool
  | [] => false
  | [_] => false
  | _ :: c :: rest => (c == '.' && !rest.isEmpty) || innerDot (c :: rest)

/-- The email check of the source: trim, then match the pattern of one
run of non-whitespace non-at characters, an at sign, another such run,
a dot, and a final such run.  The splitOn encoding captures the exactly
one at sign requirement; `innerDot` captures the dot with non-empty
material on both sides inside the domain. -/
def validEmail (v : String) : Bool :=
  match (strTrim v).data.splitOn '@' with
  | [lp, dom] => emailChunkOk lp && emailChunkOk dom && innerDot dom
  | _ => false

/-- The start-date format check of the source: exactly four digits, a
dash, two digits, a dash, two digits. -/
def isIsoDate (s : String) : Bool :=
  match s.toList with
  | [y1, y2, y3, y4, h1, m1, m2, h2, d1, d2] =>
      y1.isDigit && y2.isDigit && y3.isDigit && y4.isDigit &&
      h1 == '-' && m1.isDigit && m2.isDigit && h2 == '-' && d1.isDigit && d2.isDigit
  | _ => false

/-- A registration record as held in the external store. -/
structure NRecord where
  id : String
  name : String
  email : String
  start_date : String
  cohort : String
  expectation : String
  status : String
  stripe_session_id : Option String
  stripe_link : Option String
  amount_paid : Option Rat
  payment_date : Option String
  deriving DecidableEq

/-- The result of the availability gate. -/
structure Availability where
  isAvailable : Bool
  spotsLeft : Int
  paidCount : Nat
  deriving DecidableEq

/-- One store round trip issued by the registration handler. -/
inductive StoreOp where
  | queryAvail (cohort : String) (startDate : Option String)
  | queryFind (email cohort startDate : String)
  | patchExpectation (pageId goal : String)
  | createPage (r : NRecord)
  deriving DecidableEq

/-- An HTTP response of the registration handler. -/
inductive Resp where
  | noContent
  | availOk (cohort : String) (startDate : Option String) (a : Availability)
  | availErr
  | cohortFull (cohort startDate : String)
  | invalid (errors : List String)
  | updatedOk (pageId : String)
  | createdOk (pageId : String)
  | createBad
  | createErr
  deriving DecidableEq

/-- The HTTP status code of a registration-handler response. -/
def Resp.statusCode : Resp → Nat
  | .noContent => 204
  | .availOk _ _ _ => 200
  | .availErr => 500
  | .cohortFull _ _ => 409
  | .invalid _ => 400
  | .updatedOk _ => 200
  | .createdOk _ => 200
  | .createBad => 502
  | .createErr => 500

/-- The filter of the availability gate: cohort equal, status equal to
paid, and, only when the start date argument is truthy, start date equal
to it. -/
def availMatch (cohort : String) (startDate : Option String) (r : NRecord) : Bool :=
  decide (r.cohort = cohort) && decide (r.status = "paid") &&
    (if jsTruthyS startDate then decide (r.start_date = startDate.getD "") else true)

/-- Number of store records matching the availability-gate filter. -/
def paidCountOf (store : List NRecord) (cohort : String) (startDate : Option String) : Nat :=
  (store.filter (availMatch cohort startDate)).length

/-- The availability gate.  The flag models a thrown store error; on
success the result holds the paid count, whether capacity remains, and
the spots left. -/
def checkCohortAvailability (store : List NRecord) (cohort : String)
    (startDate : Option String) (gateFails : Bool) : Except Unit Availability :=
  if gateFails then Except.error ()
  else
    let paidCount := paidCountOf store cohort startDate
    Except.ok
      { isAvailable := decide (paidCount < 10)
        spotsLeft := max 0 (10 - (paidCount : Int))
        paidCount := paidCount }

/-- The exact-match filter of the duplicate lookup: email, cohort and
start date all equal. -/
def regMatch (email cohort start_date : String) (r : NRecord) : Bool :=
  decide (r.email = email) && decide (r.cohort = cohort) &&
    decide (r.start_date = start_date)

/-- Patch the expectation field of the page with the given id, leaving
every other field and every other record unchanged. -/
def patchExp (store : List NRecord) (pageId goal : String) : List NRecord :=
  store.map (fun r => if r.id = pageId then { r with expectation := goal } else r)

/-- The normalized registration input extracted from the request data. -/
structure RegInput where
  name : String
  email : String
  start_date : String
  cohort : String
  goal : String
  deriving DecidableEq

/-- The new record created by the registration path, populated from all
input fields with status registered and no payment metadata. -/
def newRecord (pageId : String) (ri : RegInput) : NRecord :=
  { id := pageId
    name := ri.name
    email := ri.email
    start_date := ri.start_date
    cohort := ri.cohort
    expectation := ri.goal
    status := "registered"
    stripe_session_id := none
    stripe_link := none
    amount_paid := none
    payment_date := none }

/-- The validator of the registration path: one entry per violated rule,
in source order, never short-circuited. -/
def validateReg (name email start_date : String) : List String :=
  (if name = "" then ["name is required"] else []) ++
  (if validEmail email then [] else ["valid email is required"]) ++
  (if isIsoDate start_date then [] else ["start_date must be ISO yyyy-mm-dd"])

/-- The request data after body decoding: the optional raw string fields
read by the registration handler.  The two spellings of the availability
query keys are kept separate as in the source. -/
structure RegData where
  checkAvailHyphen : Option String
  checkAvailCamel : Option String
  checkDateHyphen : Option String
  checkDateCamel : Option String
  name : Option String
  email : Option String
  start_date : Option String
  cohort : Option String
  goal : Option String
  deriving DecidableEq

/-- The normalizer block of the registration handler: trim each field,
defaulting cohort and goal through the or-else idiom. -/
def normReg (d : RegData) : RegInput :=
  { name := strTrim (d.name.getD "")
    email := strTrim (d.email.getD "")
    start_date := strTrim (d.start_date.getD "")
    cohort := strTrim (jsOrDefault d.cohort "unknown")
    goal := strTrim (jsOrDefault d.goal "unknown") }

/-- Outcome flags for the store round trips of one request, together
with the store-assigned id of a page created on this request. -/
structure StoreFlags where
  gateFails : Bool
  findFails : Bool
  updateFails : Bool
  createThrows : Bool
  createRespOk : Bool
  newId : String
  deriving DecidableEq

/-- The duplicate lookup of the registration path. -/
def findExistingRecord (store : List NRecord) (email cohort start_date : String)
    (findFails : Bool) : Except Unit (Option NRecord) :=
  if findFails then Except.error ()
  else Except.ok (store.find? (regMatch email cohort start_date))

/-- The final create step of the registration path: a thrown fetch gives
a 500, a non-ok store reply gives a 502, success appends the new record
and reports its id. -/
def createStep (ri : RegInput) (store : List NRecord) (fl : StoreFlags)
    (ops : List StoreOp) : Resp × List NRecord × List StoreOp :=
  let nr := newRecord fl.newId ri
  if fl.createThrows then (Resp.createErr, store, ops ++ [StoreOp.createPage nr])
  else if fl.createRespOk then
    (Resp.createdOk fl.newId, store ++ [nr], ops ++ [StoreOp.createPage nr])
  else (Resp.createBad, store, ops ++ [StoreOp.createPage nr])

/-- The registration path after the availability gate: validation, then
the duplicate lookup, then update or create.  A failure of the lookup or
of the update is logged and falls through to creation. -/
def regRest (ri : RegInput) (store : List NRecord) (fl : StoreFlags) :
    Resp × List NRecord × List StoreOp :=
  let errors := validateReg ri.name ri.email ri.start_date
  if errors ≠ [] then (Resp.invalid errors, store, [])
  else
    let findOp := StoreOp.queryFind ri.email ri.cohort ri.start_date
    match findExistingRecord store ri.email ri.cohort ri.start_date fl.findFails with
    | Except.error _ => createStep ri store fl [findOp]
    | Except.ok none => createStep ri store fl [findOp]
    | Except.ok (some r) =>
        if fl.updateFails then
          createStep ri store fl [findOp, StoreOp.patchExpectation r.id ri.goal]
        else
          (Resp.updatedOk r.id, patchExp store r.id ri.goal,
            [findOp, StoreOp.patchExpectation r.id ri.goal])

/-- The registration write path: the availability gate runs first; a
full cohort gives a 409; a gate failure is logged and the path proceeds
as if the gate had not run. -/
def regWrite (ri : RegInput) (store : List NRecord) (fl : StoreFlags) :
    Resp × List NRecord × List StoreOp :=
  let gateOp := StoreOp.queryAvail ri.cohort (some ri.start_date)
  let gateStop :=
    match checkCohortAvailability store ri.cohort (some ri.start_date) fl.gateFails with
    | Except.ok a =>
        if a.isAvailable then none else some (Resp.cohortFull ri.cohort ri.start_date)
    | Except.error _ => none
  match gateStop with
  | some resp => (resp, store, [gateOp])
  | none =>
      let rest := regRest ri store fl
      (rest.1, rest.2.1, gateOp :: rest.2.2)

/-- The registration handler entry point, after transport decoding of
the body into `RegData`: preflight, then the availability endpoint when
the check key is truthy, otherwise the registration write path. -/
def mainReg (method : String) (data : RegData) (store : List NRecord)
    (fl : StoreFlags) : Resp × List NRecord × List StoreOp :=
  if method = "options" then (Resp.noContent, store, [])
  else
    let checkAvail := jsOr data.checkAvailHyphen data.checkAvailCamel
    let checkDate := jsOr data.checkDateHyphen data.checkDateCamel
    if jsTruthyS checkAvail then
      let c := checkAvail.getD ""
      match checkCohortAvailability store c checkDate fl.gateFails with
      | Except.ok a => (Resp.availOk c checkDate a, store, [StoreOp.queryAvail c checkDate])
      | Except.error _ => (Resp.availErr, store, [StoreOp.queryAvail c checkDate])
    else regWrite (normReg data) store fl

/-!
The payment webhook processors.  Two variants exist in the repository: a
minimal one that only patches status to paid, and an extended one that
additionally stores payment metadata extracted from the event.  Both
share the same request parsing and branching structure.
-/

/-- JavaScript truthiness for an optional number as used by the or-else
between the two amount fields: undefined and zero are falsy. -/
def jsTruthyI (o : Option Int) : Bool := o.getD 0 != 0

/-- Civil calendar date from a count of days since the Unix epoch,
following the standard days-to-civil algorithm. -/
def civilFromDays (z0 : Int) : Int × Int × Int :=
  let z := z0 + 719468
  let era := Int.fdiv z 146097
  let doe := z - era * 146097
  let yoe := Int.fdiv (doe - Int.fdiv doe 1460 + Int.fdiv doe 36524 - Int.fdiv doe 146096) 365
  let y := yoe + era * 400
  let doy := doe - (365 * yoe + Int.fdiv yoe 4 - Int.fdiv yoe 100)
  let mp := Int.fdiv (5 * doy + 2) 153
  let d := doy - Int.fdiv (153 * mp + 2) 5 + 1
  let m := mp + (if mp < 10 then 3 else -9)
  (y + (if m ≤ 2 then 1 else 0), m, d)

/-- Left-pad the decimal form of a non-negative integer to two digits. -/
def pad2 (n : Int) : String := if n < 10 then "0" ++ toString n else toString n

/-- Left-pad the decimal form of a non-negative integer to four digits. -/
def pad4 (n : Int) : String :=
  if n < 10 then "000" ++ toString n
  else if n < 100 then "00" ++ toString n
  else if n < 1000 then "0" ++ toString n
  else toString n

/-- The date part of the ISO form of a Unix timestamp in seconds, as
computed by the source through the millisecond clock of the platform. -/
def isoDateOfUnix (created : Int) : String :=
  let days := Int.fdiv (created * 1000) 86400000
  let ymd := civilFromDays days
  pad4 ymd.1 ++ "-" ++ pad2 ymd.2.1 ++ "-" ++ pad2 ymd.2.2

/-- The customer-details sub-object of a checkout session. -/
structure CustomerDetails where
  email : Option String
  name : Option String
  deriving DecidableEq

/-- A checkout session as read by the webhook processors.  Optional
fields model properties that may be absent from the event. -/
structure Session where
  id : String
  payment_status : Option String
  customer_details : Option CustomerDetails
  customer_email : Option String
  amount_total : Option Int
  amount_subtotal : Option Int
  created : Int
  currency : Option String
  deriving DecidableEq

/-- A webhook event.  `dataObject` is the value of the guarded chain
from the event to its data object: it is `none` when the data field is
absent or the object is null or undefined. -/
structure Event where
  type : String
  dataObject : Option Session
  deriving DecidableEq

/-- The email extraction chain of the webhook entry points: the guarded
customer-details email, or else the unguarded customer email, or else
null.  Evaluated on a present session this cannot fail; the entry points
fail before reaching it when the session is absent, because the middle
disjunct reads a property of an absent session. -/
def emailOf (s : Session) : Option String :=
  let viaDetails : Option String :=
    match s.customer_details with
    | none => none
    | some cd => cd.email
  if jsTruthyS viaDetails then viaDetails
  else if jsTruthyS s.customer_email then s.customer_email
  else none

/-- The payment metadata extracted from a session by the extended
webhook: session id, amount in minor units through the or-else of the
two amount fields, payment date from the created timestamp, customer
name through the guarded chain, currency with its default. -/
structure StripeData where
  sessionId : String
  amountPaid : Option Int
  paymentDate : String
  customerName : Option String
  currency : String
  deriving DecidableEq

/-- Build the payment metadata from a session. -/
def mkStripeData (s : Session) : StripeData :=
  { sessionId := s.id
    amountPaid := if jsTruthyI s.amount_total then s.amount_total else s.amount_subtotal
    paymentDate := isoDateOfUnix s.created
    customerName :=
      (let n := match s.customer_details with
        | none => none
        | some cd => cd.name
      if jsTruthyS n then n else none)
    currency := if jsTruthyS s.currency then s.currency.getD "" else "usd" }

/-- The Stripe dashboard link constructed from a session id. -/
def stripeLinkOf (sessionId : String) : String :=
  "https://dashboard.stripe.com/payments/" ++ sessionId

/-- The patch of the minimal webhook: set status to paid, touch nothing
else. -/
def markPaidMin (r : NRecord) : NRecord := { r with status := "paid" }

/-- The patch of the extended webhook: set status to paid and attach the
payment metadata, each metadata property only when its guard in the
source holds. -/
def markPaidStripe (sd : StripeData) (r : NRecord) : NRecord :=
  { r with
    status := "paid"
    stripe_session_id :=
      if sd.sessionId ≠ "" then some sd.sessionId else r.stripe_session_id
    stripe_link :=
      if sd.sessionId ≠ "" then some (stripeLinkOf sd.sessionId) else r.stripe_link
    amount_paid :=
      match sd.amountPaid with
      | some c => some ((c : Rat) / 100)
      | none => r.amount_paid
    payment_date :=
      if sd.paymentDate ≠ "" then some sd.paymentDate else r.payment_date }

/-- Apply a record patch to the page with the given id. -/
def patchById (f : NRecord → NRecord) (pageId : String) (store : List NRecord) :
    List NRecord :=
  store.map (fun r => if r.id = pageId then f r else r)

/-- The update loop of the webhook processors: patch each found page in
turn. -/
def runPatches (f : NRecord → NRecord) (pages store : List NRecord) : List NRecord :=
  pages.foldl (fun st p => patchById f p.id st) store

/-- One store round trip issued by a webhook processor. -/
inductive WOp where
  | queryByEmail (email : String)
  | patchMin (pageId : String)
  | patchStripe (pageId : String) (sd : StripeData)
  deriving DecidableEq

/-- The extra response metadata of the extended webhook. -/
inductive WMeta where
  | zeroMatch (sessionId : String)
  | full (sessionId : String) (link : String) (amountPaid : Option Int)
      (pages : List (String × String))
  deriving DecidableEq

/-- An HTTP response of a webhook processor.  The minimal processor
always carries no metadata; the extended one always carries some. -/
inductive WResp where
  | noContent
  | methodNotAllowed
  | badBody
  | ignored (reason : String)
  | noEmail
  | success (updated : Nat) (email : String) (note : Option String) (meta : Option WMeta)
  | storeErr
  deriving DecidableEq

/-- The HTTP status code of a webhook response. -/
def WResp.statusCode : WResp → Nat
  | .noContent => 204
  | .methodNotAllowed => 405
  | .badBody => 400
  | .ignored _ => 200
  | .noEmail => 400
  | .success _ _ _ _ => 200
  | .storeErr => 502

/-- The updated count reported by a webhook response, when it reports
success. -/
def WResp.updatedCount : WResp → Option Nat
  | .success n _ _ _ => some n
  | _ => none

/-- The minimal webhook entry point.  The input event is the decoded
body, `none` when the body was empty or unparseable.  The error result
models the uncaught type error raised by the unguarded customer email
read when the data object of a checkout-completion event is absent. -/
def webhookMainMin (method : String) (pbody : Option Event) (store : List NRecord)
    (queryFails patchFails : Bool) :
    Except Unit (WResp × List NRecord × List WOp) :=
  if method = "options" then Except.ok (WResp.noContent, store, [])
  else if method ≠ "post" then Except.ok (WResp.methodNotAllowed, store, [])
  else
    match pbody with
    | none => Except.ok (WResp.badBody, store, [])
    | some ev =>
      if ev.type ≠ "checkout.session.completed" then
        Except.ok (WResp.ignored "unhandled_event_type", store, [])
      else
        match ev.dataObject with
        | none => Except.error ()
        | some s =>
          let paid := s.payment_status == some "paid"
          let email := emailOf s
          if !paid then Except.ok (WResp.ignored "not_paid", store, [])
          else
            match email with
            | none => Except.ok (WResp.noEmail, store, [])
            | some em =>
              if queryFails then Except.ok (WResp.storeErr, store, [WOp.queryByEmail em])
              else
                let pages := store.filter (fun r => decide (r.email = em))
                if pages.isEmpty then
                  Except.ok (WResp.success 0 em (some "no_matching_email") none,
                    store, [WOp.queryByEmail em])
                else if patchFails then
                  Except.ok (WResp.storeErr, store, [WOp.queryByEmail em])
                else
                  Except.ok (WResp.success pages.length em none none,
                    runPatches markPaidMin pages store,
                    WOp.queryByEmail em :: pages.map (fun p => WOp.patchMin p.id))

/-- The extended webhook entry point: same parsing and branching as the
minimal one, with the payment metadata extracted, stored on every patch
and echoed in the response. -/
def webhookMainExt (method : String) (pbody : Option Event) (store : List NRecord)
    (queryFails patchFails : Bool) :
    Except Unit (WResp × List NRecord × List WOp) :=
  if method = "options" then Except.ok (WResp.noContent, store, [])
  else if method ≠ "post" then Except.ok (WResp.methodNotAllowed, store, [])
  else
    match pbody with
    | none => Except.ok (WResp.badBody, store, [])
    | some ev =>
      if ev.type ≠ "checkout.session.completed" then
        Except.ok (WResp.ignored "unhandled_event_type", store, [])
      else
        match ev.dataObject with
        | none => Except.error ()
        | some s =>
          let paid := s.payment_status == some "paid"
          let email := emailOf s
          if !paid then Except.ok (WResp.ignored "not_paid", store, [])
          else
            match email with
            | none => Except.ok (WResp.noEmail, store, [])
            | some em =>
              let sd := mkStripeData s
              if queryFails then Except.ok (WResp.storeErr, store, [WOp.queryByEmail em])
              else
                let pages := store.filter (fun r => decide (r.email = em))
                if pages.isEmpty then
                  Except.ok (WResp.success 0 em (some "no_matching_email")
                      (some (WMeta.zeroMatch sd.sessionId)),
                    store, [WOp.queryByEmail em])
                else if patchFails then
                  Except.ok (WResp.storeErr, store, [WOp.queryByEmail em])
                else
                  Except.ok (WResp.success pages.length em none
                      (some (WMeta.full sd.sessionId (stripeLinkOf sd.sessionId)
                        sd.amountPaid
                        (pages.map (fun p => (p.id, stripeLinkOf sd.sessionId))))),
                    runPatches (markPaidStripe sd) pages store,
                    WOp.queryByEmail em :: pages.map (fun p => WOp.patchStripe p.id sd))

/-- The per-record effect of the patch loop over a page list: patched
when the record id occurs among the page ids, untouched otherwise. -/
def patchMask (f : NRecord → NRecord) (pages : List NRecord) (r : NRecord) : NRecord :=
  if pages.any (fun p => decide (p.id = r.id)) then f r else r

/-- Forward-progress relation between a store before and after one
request: every record that was paid still exists under its id with
status paid. -/
def keepsPaid (s s2 : List NRecord) : Prop :=
  ∀ r, r ∈ s → r.status = "paid" →
    ∃ r2, r2 ∈ s2 ∧ r2.id = r.id ∧ r2.status = "paid"

/-- The store resulting from a webhook run: unchanged when the run ended
in the modelled uncaught error, which happens before any store write. -/
def wStoreOf (x : Except Unit (WResp × List NRecord × List WOp))
    (store : List NRecord) : List NRecord :=
  match x with
  | Except.ok t => t.2.1
  | Except.error _ => store

/-!
Sample data used by concrete instances and witnesses.
-/

/-- A paid record of cohort X on the first of January 2024. -/
def paidRecX : NRecord :=
  { id := "px"
    name := "n"
    email := "e@x.com"
    start_date := "2024-01-01"
    cohort := "X"
    expectation := "g"
    status := "paid"
    stripe_session_id := none
    stripe_link := none
    amount_paid := none
    payment_date := none }

/-- An existing registered record for the sample registration input. -/
def cRec : NRecord :=
  { id := "pg1"
    name := "Ana"
    email := "ana@x.com"
    start_date := "2024-03-01"
    cohort := "spring"
    expectation := "old goal"
    status := "registered"
    stripe_session_id := none
    stripe_link := none
    amount_paid := none
    payment_date := none }

/-- Request data with every field absent. -/
def emptyData : RegData :=
  { checkAvailHyphen := none
    checkAvailCamel := none
    checkDateHyphen := none
    checkDateCamel := none
    name := none
    email := none
    start_date := none
    cohort := none
    goal := none }

/-- Request data for a valid registration matching `cRec` with a new
goal. -/
def cRegData : RegData :=
  { checkAvailHyphen := none
    checkAvailCamel := none
    checkDateHyphen := none
    checkDateCamel := none
    name := some "Ana"
    email := some "ana@x.com"
    start_date := some "2024-03-01"
    cohort := some "spring"
    goal := some "learn basics" }

/-- Request data for an availability check of cohort X. -/
def cAvailData : RegData :=
  { checkAvailHyphen := some "X"
    checkAvailCamel := none
    checkDateHyphen := none
    checkDateCamel := none
    name := none
    email := none
    start_date := none
    cohort := none
    goal := none }

/-- Store flags with every call succeeding. -/
def okFlags : StoreFlags :=
  { gateFails := false
    findFails := false
    updateFails := false
    createThrows := false
    createRespOk := true
    newId := "new1" }

/-- Store flags with a failing availability gate and every other call
succeeding. -/
def gateFailFlags : StoreFlags :=
  { gateFails := true
    findFails := false
    updateFails := false
    createThrows := false
    createRespOk := true
    newId := "new1" }

/-- A completed, paid checkout session for the sample email. -/
def cSession : Session :=
  { id := "cs_1"
    payment_status := some "paid"
    customer_details := some { email := some "ana@x.com", name := some "Ana" }
    customer_email := none
    amount_total := some 5000
    amount_subtotal := none
    created := 1709287200
    currency := some "usd" }

/-- A checkout-completion event carrying the sample session. -/
def cEvent : Event :=
  { type := "checkout.session.completed", dataObject := some cSession }

/-- A checkout-completion event with no data object. -/
def noObjEvent : Event :=
  { type := "checkout.session.completed", dataObject := none }

/-- The payment metadata of the sample session. -/
def cStripe : StripeData := mkStripeData cSession

/-- The sample record after the extended paid patch. -/
def cPaidRecExt : NRecord := markPaidStripe cStripe cRec

/-- The extended webhook response for the sample event against the
one-record store. -/
def cRespExt : WResp :=
  WResp.success 1 "ana@x.com" none
    (some (WMeta.full "cs_1" (stripeLinkOf "cs_1") (some 5000)
      [("pg1", stripeLinkOf "cs_1")]))

/-- The extended webhook trace for the sample event against the
one-record store. -/
def cTrExt : List WOp :=
  [WOp.queryByEmail "ana@x.com", WOp.patchStripe "pg1" cStripe]

/-!
Helper lemmas about the patch loop and the patch functions.
-/

theorem patchById_eq_map (f : NRecord → NRecord) (pid : String) (store : List NRecord) :
    patchById f pid store = store.map (fun r => if r.id = pid then f r else r) := rfl

/-- Running the patch loop over a page list patches, in the final store,
exactly the records whose id occurs among the page ids, provided the
patch preserves ids and is idempotent. -/
theorem runPatches_eq_map (f : NRecord → NRecord)
    (hid : ∀ r, (f r).id = r.id) (hidem : ∀ r, f (f r) = f r) :
    ∀ (pages store : List NRecord),
      runPatches f pages store
        = store.map (fun r => if pages.any (fun p => p.id = r.id) then f r else r)
  | [], store => by
      simp [runPatches]
  | p :: ps, store => by
      have ih := runPatches_eq_map f hid hidem ps (patchById f p.id store)
      have hstep : runPatches f (p :: ps) store = runPatches f ps (patchById f p.id store) := rfl
      rw [hstep, ih, patchById_eq_map, List.map_map]
      refine List.map_congr_left ?_
      intro r _
      by_cases hpr : r.id = p.id
      · by_cases hps : ps.any (fun q => q.id = r.id)
        · simp [Function.comp, hpr, hid, hps, hidem]
        · simp [Function.comp, hpr, hid, hps, hidem]
      · have hpr2 : ¬ p.id = r.id := fun h => hpr h.symm
        by_cases hps : ps.any (fun q => q.id = r.id)
        · simp [Function.comp, hpr, hpr2, hps]
        · simp [Function.comp, hpr, hpr2, hps]

theorem markPaidMin_id (r : NRecord) : (markPaidMin r).id = r.id := rfl

theorem markPaidMin_email (r : NRecord) : (markPaidMin r).email = r.email := rfl

theorem markPaidMin_idem (r : NRecord) : markPaidMin (markPaidMin r) = markPaidMin r := rfl

theorem markPaidStripe_id (sd : StripeData) (r : NRecord) :
    (markPaidStripe sd r).id = r.id := rfl

theorem markPaidStripe_email (sd : StripeData) (r : NRecord) :
    (markPaidStripe sd r).email = r.email := rfl

theorem markPaidStripe_idem (sd : StripeData) (r : NRecord) :
    markPaidStripe sd (markPaidStripe sd r) = markPaidStripe sd r := by
  unfold markPaidStripe
  by_cases hs : sd.sessionId = "" <;>
    cases ha : sd.amountPaid <;>
      by_cases hp : sd.paymentDate = "" <;> simp [hs, ha, hp]

/-- C2: for every cohort and optional start date the availability gate
returns the raw count of records matching cohort, paid status and, when
a start date is supplied, the exact date, together with isAvailable
equal to count less than ten and spotsLeft equal to the larger of zero
and ten minus count; ten existing paid records give isAvailable false
and spotsLeft zero, three give spotsLeft seven. -/
theorem availability_gate_contract :
    (∀ (store : List NRecord) (cohort : String) (sd : Option String),
      checkCohortAvailability store cohort sd false
        = Except.ok
            { isAvailable :=
                decide ((store.filter (fun r =>
                  decide (r.cohort = cohort) && decide (r.status = "paid") &&
                    (if jsTruthyS sd then decide (r.start_date = sd.getD "") else true))).length < 10)
              spotsLeft :=
                max 0 (10 - (((store.filter (fun r =>
                  decide (r.cohort = cohort) && decide (r.status = "paid") &&
                    (if jsTruthyS sd then decide (r.start_date = sd.getD "") else true))).length : Nat) : Int))
              paidCount :=
                (store.filter (fun r =>
                  decide (r.cohort = cohort) && decide (r.status = "paid") &&
                    (if jsTruthyS sd then decide (r.start_date = sd.getD "") else true))).length }) ∧
    checkCohortAvailability (List.replicate 10 paidRecX) "X" (some "2024-01-01") false
      = Except.ok { isAvailable := false, spotsLeft := 0, paidCount := 10 } ∧
    checkCohortAvailability (List.replicate 3 paidRecX) "X" (some "2024-01-01") false
      = Except.ok { isAvailable := true, spotsLeft := 7, paidCount := 3 } := by
  refine ⟨fun store cohort sd => rfl, by rfl, by rfl⟩

/-- C6: the validator reports every violated rule together, with exactly
one entry per violated rule, and returns a non-empty list whenever the
name is missing, the email fails the pattern, or the start date fails
the format; a missing name together with a bad email and a well-formed
date gives exactly the two corresponding entries. -/
theorem validator_one_entry_per_rule :
    (∀ name email start_date : String,
      (validateReg name email start_date).length
        = (if name = "" then 1 else 0) + (if validEmail email then 0 else 1) +
            (if isIsoDate start_date then 0 else 1)) ∧
    (∀ name email start_date : String,
      name = "" ∨ validEmail email = false ∨ isIsoDate start_date = false →
      validateReg name email start_date ≠ []) ∧
    validateReg "" "not-an-email" "2024-01-01"
      = ["name is required", "valid email is required"] := by
  refine ⟨?_, ?_, by decide⟩
  · intro name email start_date
    unfold validateReg
    by_cases hn : name = "" <;> by_cases he : validEmail email <;>
      by_cases hd : isIsoDate start_date <;> simp [hn, he, hd]
  · intro name email start_date h
    unfold validateReg
    rcases h with hn | he | hd
    · simp [hn]
    · simp [he]
    · simp [hd]

/-- C6 witness: the validator rejects an input with a missing name. -/
theorem validator_one_entry_per_rule_witness :
    validateReg "" "a@b.com" "2024-01-01" ≠ [] :=
  validator_one_entry_per_rule.2.1 "" "a@b.com" "2024-01-01" (Or.inl rfl)

/-- C9: a posted checkout-completion event whose data object is absent
makes both webhook entry points fail with the modelled uncaught type
error, raised by the unguarded customer email read, instead of
returning any HTTP response. -/
theorem webhook_missing_object_uncaught :
    ∀ (ev : Event) (store : List NRecord) (qf pf : Bool),
      ev.type = "checkout.session.completed" → ev.dataObject = none →
      webhookMainMin "post" (some ev) store qf pf = Except.error () ∧
      webhookMainExt "post" (some ev) store qf pf = Except.error () := by
  intro ev store qf pf htype hobj
  constructor
  · unfold webhookMainMin
    simp [htype, hobj]
  · unfold webhookMainExt
    simp [htype, hobj]

/-- C9 witness: the concrete checkout-completion event with no data
object crashes both webhook entry points. -/
theorem webhook_missing_object_uncaught_witness :
    webhookMainMin "post" (some noObjEvent) [] false false = Except.error () ∧
    webhookMainExt "post" (some noObjEvent) [] false false = Except.error () :=
  webhook_missing_object_uncaught noObjEvent [] false false rfl rfl

/-- On the registration write path the trace always begins with the
availability-gate query: the gate runs before anything else. -/
theorem regWrite_trace_head (ri : RegInput) (store : List NRecord) (fl : StoreFlags) :
    (regWrite ri store fl).2.2.head?
      = some (StoreOp.queryAvail ri.cohort (some ri.start_date)) := by
  cases hE : checkCohortAvailability store ri.cohort (some ri.start_date) fl.gateFails with
  | ok a => by_cases hA : a.isAvailable = true <;> simp [regWrite, hE, hA]
  | error e => simp [regWrite, hE]

/-- When the gate does not stop the request, the registration write path
with invalid fields answers with the itemized validation response, and
the availability-gate query is the only store operation of the request. -/
theorem regWrite_invalid (ri : RegInput) (store : List NRecord) (fl : StoreFlags)
    (hv : validateReg ri.name ri.email ri.start_date ≠ [])
    (hg : fl.gateFails = true ∨ paidCountOf store ri.cohort (some ri.start_date) < 10) :
    regWrite ri store fl
      = (Resp.invalid (validateReg ri.name ri.email ri.start_date), store,
         [StoreOp.queryAvail ri.cohort (some ri.start_date)]) := by
  cases hgf : fl.gateFails with
  | true => simp [regWrite, checkCohortAvailability, hgf, regRest, hv]
  | false =>
      rcases hg with hg | hg
      · rw [hgf] at hg; exact absurd hg (by simp)
      · simp [regWrite, checkCohortAvailability, hgf, hg, regRest, hv]

/-- On the registration write path the entry point reduces to the write
path on the normalized input. -/
theorem mainReg_write_path (method : String) (data : RegData) (store : List NRecord)
    (fl : StoreFlags) (hm : method ≠ "options")
    (hc : jsTruthyS (jsOr data.checkAvailHyphen data.checkAvailCamel) = false) :
    mainReg method data store fl = regWrite (normReg data) store fl := by
  unfold mainReg
  simp [hm, hc]

/-- C1 counterexample: a request with every field missing fails
validation and receives the 400 validation response, yet the trace of
its handling contains an availability-gate query, issued before
validation ran: the gate is not placed after the validator. -/
theorem reg_gate_query_despite_invalid_cex :
    (mainReg "get" emptyData [] okFlags).1
        = Resp.invalid
            ["name is required", "valid email is required",
             "start_date must be ISO yyyy-mm-dd"] ∧
    (mainReg "get" emptyData [] okFlags).2.2
        = [StoreOp.queryAvail "unknown" (some "")] := by
  exact ⟨by decide, by decide⟩

/-- C1 amended: on the registration write path the handler normalizes
the request, then runs the availability gate, then validates, then
resolves the upsert; a request whose fields fail validation still
receives the 400 validation response whenever the gate reported
availability or failed, but the availability-gate query is issued on its
behalf before validation completes, as the first trace entry. -/
theorem reg_gate_runs_before_validation :
    ∀ (method : String) (data : RegData) (store : List NRecord) (fl : StoreFlags),
      method ≠ "options" →
      jsTruthyS (jsOr data.checkAvailHyphen data.checkAvailCamel) = false →
      ((mainReg method data store fl).2.2.head?
          = some (StoreOp.queryAvail (normReg data).cohort (some (normReg data).start_date))) ∧
      (validateReg (normReg data).name (normReg data).email (normReg data).start_date ≠ [] →
        fl.gateFails = true ∨
          paidCountOf store (normReg data).cohort (some (normReg data).start_date) < 10 →
        mainReg method data store fl
          = (Resp.invalid
              (validateReg (normReg data).name (normReg data).email (normReg data).start_date),
             store,
             [StoreOp.queryAvail (normReg data).cohort (some (normReg data).start_date)])) := by
  intro method data store fl hm hc
  rw [mainReg_write_path method data store fl hm hc]
  exact ⟨regWrite_trace_head _ store fl,
    fun hv hg => regWrite_invalid _ store fl hv hg⟩

/-- C1 amended witness: the all-missing request shows the gate query
first in the trace and the 400 validation response. -/
theorem reg_gate_runs_before_validation_witness :
    ((mainReg "get" emptyData [] okFlags).2.2.head?
        = some (StoreOp.queryAvail "unknown" (some ""))) ∧
    mainReg "get" emptyData [] okFlags
      = (Resp.invalid (validateReg "" "" ""), [],
         [StoreOp.queryAvail "unknown" (some "")]) := by
  have h := reg_gate_runs_before_validation "get" emptyData [] okFlags
    (by decide) (by decide)
  exact ⟨h.1, h.2 (by decide) (Or.inr (by decide))⟩

/-- The part of the registration path after the gate never produces the
gate responses: neither the capacity conflict nor the availability
error. -/
theorem regRest_no_gate_resp (ri : RegInput) (store : List NRecord) (fl : StoreFlags) :
    (∀ c d, (regRest ri store fl).1 ≠ Resp.cohortFull c d) ∧
    (regRest ri store fl).1 ≠ Resp.availErr := by
  have h : ∀ c d, (regRest ri store fl).1 ≠ Resp.cohortFull c d ∧
      (regRest ri store fl).1 ≠ Resp.availErr := by
    intro c d
    unfold regRest createStep findExistingRecord
    repeat' split
    all_goals
      by_cases hvv : validateReg ri.name ri.email ri.start_date = [] <;> simp [hvv]
  exact ⟨fun c d => (h c d).1, (h "" "").2⟩

/-- C4: a failing availability check makes the availability-check
endpoint answer the 500 error response, while the registration write
path proceeds exactly as the post-gate pipeline on the same input, its
trace showing the attempted gate query first; in particular a gate
failure alone never produces the capacity conflict or the availability
error on the write path. -/
theorem gate_failure_policy :
    (∀ (method : String) (data : RegData) (store : List NRecord) (fl : StoreFlags),
      method ≠ "options" →
      jsTruthyS (jsOr data.checkAvailHyphen data.checkAvailCamel) = true →
      fl.gateFails = true →
      mainReg method data store fl
        = (Resp.availErr, store,
           [StoreOp.queryAvail ((jsOr data.checkAvailHyphen data.checkAvailCamel).getD "")
              (jsOr data.checkDateHyphen data.checkDateCamel)]) ∧
      Resp.statusCode (mainReg method data store fl).1 = 500) ∧
    (∀ (method : String) (data : RegData) (store : List NRecord) (fl : StoreFlags),
      method ≠ "options" →
      jsTruthyS (jsOr data.checkAvailHyphen data.checkAvailCamel) = false →
      fl.gateFails = true →
      mainReg method data store fl
        = ((regRest (normReg data) store fl).1, (regRest (normReg data) store fl).2.1,
            StoreOp.queryAvail (normReg data).cohort (some (normReg data).start_date)
              :: (regRest (normReg data) store fl).2.2) ∧
      (∀ c d, (mainReg method data store fl).1 ≠ Resp.cohortFull c d) ∧
      (mainReg method data store fl).1 ≠ Resp.availErr) := by
  constructor
  · intro method data store fl hm hc hgf
    have h : mainReg method data store fl
        = (Resp.availErr, store,
           [StoreOp.queryAvail ((jsOr data.checkAvailHyphen data.checkAvailCamel).getD "")
              (jsOr data.checkDateHyphen data.checkDateCamel)]) := by
      unfold mainReg
      simp [hm, hc, checkCohortAvailability, hgf]
    exact ⟨h, by rw [h]; rfl⟩
  · intro method data store fl hm hc hgf
    have h : mainReg method data store fl
        = ((regRest (normReg data) store fl).1, (regRest (normReg data) store fl).2.1,
            StoreOp.queryAvail (normReg data).cohort (some (normReg data).start_date)
              :: (regRest (normReg data) store fl).2.2) := by
      rw [mainReg_write_path method data store fl hm hc]
      simp [regWrite, checkCohortAvailability, hgf]
    refine ⟨h, ?_, ?_⟩
    · intro c d
      rw [h]
      exact (regRest_no_gate_resp (normReg data) store fl).1 c d
    · rw [h]
      exact (regRest_no_gate_resp (normReg data) store fl).2

/-- C4 witness: with a failing gate, the concrete availability check
answers 500 while the concrete registration request is not answered with
a gate error. -/
theorem gate_failure_policy_witness :
    mainReg "get" cAvailData [] gateFailFlags
      = (Resp.availErr, [], [StoreOp.queryAvail "X" none]) ∧
    (mainReg "get" emptyData [] gateFailFlags).1 ≠ Resp.availErr :=
  ⟨(gate_failure_policy.1 "get" cAvailData [] gateFailFlags (by decide) (by decide) rfl).1,
   (gate_failure_policy.2 "get" emptyData [] gateFailFlags (by decide) (by decide) rfl).2.2⟩

/-- When the gate fails or reports capacity, the write path is the
post-gate pipeline with the gate query recorded first. -/
theorem regWrite_gate_open (ri : RegInput) (store : List NRecord) (fl : StoreFlags)
    (hg : fl.gateFails = true ∨ paidCountOf store ri.cohort (some ri.start_date) < 10) :
    regWrite ri store fl
      = ((regRest ri store fl).1, (regRest ri store fl).2.1,
         StoreOp.queryAvail ri.cohort (some ri.start_date) :: (regRest ri store fl).2.2) := by
  cases hgf : fl.gateFails with
  | true => simp [regWrite, checkCohortAvailability, hgf]
  | false =>
      rcases hg with hg | hg
      · rw [hgf] at hg; exact absurd hg (by simp)
      · simp [regWrite, checkCohortAvailability, hgf, hg]

/-- With valid fields and a found duplicate, the post-gate pipeline
patches the expectation of the found page and reports the update. -/
theorem regRest_found (ri : RegInput) (store : List NRecord) (fl : StoreFlags)
    (hv : validateReg ri.name ri.email ri.start_date = [])
    (hff : fl.findFails = false) (huf : fl.updateFails = false) (r : NRecord)
    (hr : store.find? (regMatch ri.email ri.cohort ri.start_date) = some r) :
    regRest ri store fl
      = (Resp.updatedOk r.id, patchExp store r.id ri.goal,
         [StoreOp.queryFind ri.email ri.cohort ri.start_date,
          StoreOp.patchExpectation r.id ri.goal]) := by
  simp [regRest, hv, findExistingRecord, hff, hr, huf]

/-- With valid fields and no duplicate, the post-gate pipeline creates
the new record and reports the creation. -/
theorem regRest_notFound (ri : RegInput) (store : List NRecord) (fl : StoreFlags)
    (hv : validateReg ri.name ri.email ri.start_date = [])
    (hff : fl.findFails = false) (hct : fl.createThrows = false)
    (hcr : fl.createRespOk = true)
    (hr : store.find? (regMatch ri.email ri.cohort ri.start_date) = none) :
    regRest ri store fl
      = (Resp.createdOk fl.newId, store ++ [newRecord fl.newId ri],
         [StoreOp.queryFind ri.email ri.cohort ri.start_date,
          StoreOp.createPage (newRecord fl.newId ri)]) := by
  simp [regRest, hv, findExistingRecord, hff, hr, createStep, hct, hcr]

/-- C3: on a valid registration that passes or bypasses the gate, when a
record matching the email, cohort and start date triple is found the
handler patches only its expectation field, leaves every other field of
every record unchanged, and reports the update with the found id; when
no record matches, it creates a record populated from all input fields
with status registered and reports the creation. -/
theorem upsert_resolution :
    ∀ (method : String) (data : RegData) (store : List NRecord) (fl : StoreFlags),
      method ≠ "options" →
      jsTruthyS (jsOr data.checkAvailHyphen data.checkAvailCamel) = false →
      validateReg (normReg data).name (normReg data).email (normReg data).start_date = [] →
      (fl.gateFails = true ∨
        paidCountOf store (normReg data).cohort (some (normReg data).start_date) < 10) →
      fl.findFails = false → fl.updateFails = false →
      fl.createThrows = false → fl.createRespOk = true →
      (∀ r, store.find?
          (regMatch (normReg data).email (normReg data).cohort (normReg data).start_date)
            = some r →
        (mainReg method data store fl).1 = Resp.updatedOk r.id ∧
        (mainReg method data store fl).2.1
          = store.map (fun q =>
              if q.id = r.id then { q with expectation := (normReg data).goal } else q) ∧
        (∀ q, q ∈ store → q.id ≠ r.id → q ∈ (mainReg method data store fl).2.1) ∧
        (∀ q, q ∈ store → q.id = r.id →
          ∃ q2, q2 ∈ (mainReg method data store fl).2.1 ∧
            q2.expectation = (normReg data).goal ∧ q2.id = q.id ∧ q2.name = q.name ∧
            q2.email = q.email ∧ q2.start_date = q.start_date ∧ q2.cohort = q.cohort ∧
            q2.status = q.status ∧ q2.stripe_session_id = q.stripe_session_id ∧
            q2.stripe_link = q.stripe_link ∧ q2.amount_paid = q.amount_paid ∧
            q2.payment_date = q.payment_date)) ∧
      (store.find?
          (regMatch (normReg data).email (normReg data).cohort (normReg data).start_date)
            = none →
        (mainReg method data store fl).1 = Resp.createdOk fl.newId ∧
        (mainReg method data store fl).2.1 = store ++ [newRecord fl.newId (normReg data)] ∧
        (newRecord fl.newId (normReg data)).status = "registered" ∧
        (∀ q, q ∈ store → q ∈ (mainReg method data store fl).2.1)) := by
  intro method data store fl hm hc hv hg hff huf hct hcr
  rw [mainReg_write_path method data store fl hm hc,
    regWrite_gate_open (normReg data) store fl hg]
  constructor
  · intro r hr
    rw [regRest_found (normReg data) store fl hv hff huf r hr]
    refine ⟨rfl, rfl, ?_, ?_⟩
    · intro q hq hne
      exact List.mem_map.mpr ⟨q, hq, by simp [patchExp, hne]⟩
    · intro q hq hqe
      refine ⟨{ q with expectation := (normReg data).goal },
        List.mem_map.mpr ⟨q, hq, by simp [patchExp, hqe]⟩, ?_⟩
      simp
  · intro hr
    rw [regRest_notFound (normReg data) store fl hv hff hct hcr hr]
    refine ⟨rfl, rfl, rfl, ?_⟩
    intro q hq
    exact List.mem_append_left _ hq

/-- C3 witness: the concrete valid registration matching the existing
record patches its expectation and reports the update. -/
theorem upsert_resolution_witness :
    (mainReg "post" cRegData [cRec] okFlags).1 = Resp.updatedOk "pg1" ∧
    (mainReg "post" cRegData [cRec] okFlags).2.1
      = [cRec].map (fun q =>
          if q.id = cRec.id then { q with expectation := (normReg cRegData).goal } else q) := by
  have h := (upsert_resolution "post" cRegData [cRec] okFlags (by decide) (by decide)
    (by decide) (Or.inr (by decide)) rfl rfl rfl rfl).1 cRec (by decide)
  exact ⟨h.1, h.2.1⟩

/-- C5: on a posted checkout-completion event that is paid and carries
an extractable email, the minimal webhook reports success with updated
equal to the number of store records whose email equals the extracted
one, with the no-matching-email note exactly when that number is zero,
and the final store holds the paid-status patch of every matching
record; the success response carries status code 200. -/
theorem webhook_min_updates_matching :
    ∀ (ev : Event) (s : Session) (em : String) (store : List NRecord),
      ev.type = "checkout.session.completed" →
      ev.dataObject = some s →
      s.payment_status = some "paid" →
      emailOf s = some em →
      (webhookMainMin "post" (some ev) store false false
        = Except.ok
            (WResp.success (store.filter (fun r => decide (r.email = em))).length em
               (if (store.filter (fun r => decide (r.email = em))).isEmpty
                then some "no_matching_email" else none) none,
             (if (store.filter (fun r => decide (r.email = em))).isEmpty then store
              else runPatches markPaidMin (store.filter (fun r => decide (r.email = em))) store),
             WOp.queryByEmail em ::
               (store.filter (fun r => decide (r.email = em))).map
                 (fun p => WOp.patchMin p.id))) ∧
      (∀ r, r ∈ store → r.email = em →
        { r with status := "paid" } ∈
          (if (store.filter (fun r => decide (r.email = em))).isEmpty then store
           else runPatches markPaidMin
             (store.filter (fun r => decide (r.email = em))) store)) ∧
      (∀ n e no me, WResp.statusCode (WResp.success n e no me) = 200) := by
  intro ev s em store htype hobj hpaid hemail
  refine ⟨?_, ?_, fun n e no me => rfl⟩
  · unfold webhookMainMin
    by_cases hpe : (store.filter (fun r => decide (r.email = em))).isEmpty
    · rw [List.isEmpty_iff] at hpe
      simp [htype, hobj, hpaid, hemail, hpe]
    · simp only [List.isEmpty_iff] at hpe
      simp [htype, hobj, hpaid, hemail, hpe]
  · intro r hr hre
    have hrp : r ∈ store.filter (fun q => decide (q.email = em)) :=
      List.mem_filter.mpr ⟨hr, by simp [hre]⟩
    have hne : ¬ (store.filter (fun q => decide (q.email = em))).isEmpty := by
      rw [List.isEmpty_iff]
      intro hnil
      rw [hnil] at hrp
      exact List.not_mem_nil r hrp
    rw [if_neg hne,
      runPatches_eq_map markPaidMin (fun q => rfl) (fun q => rfl)]
    have hany : (store.filter (fun q => decide (q.email = em))).any
        (fun p => decide (p.id = r.id)) = true :=
      List.any_eq_true.mpr ⟨r, hrp, by simp⟩
    exact List.mem_map.mpr ⟨r, hr, by simp [hany, markPaidMin]⟩

/-- C5 witness: the concrete paid event applied to a store with one
matching record patches it to paid and reports one update. -/
theorem webhook_min_updates_matching_witness :
    webhookMainMin "post" (some cEvent) [cRec] false false
      = Except.ok
          (WResp.success 1 "ana@x.com" none none,
           [markPaidMin cRec],
           [WOp.queryByEmail "ana@x.com", WOp.patchMin "pg1"]) :=
  (webhook_min_updates_matching cEvent cSession "ana@x.com" [cRec] rfl rfl rfl rfl).1

theorem keepsPaid_refl (s : List NRecord) : keepsPaid s s :=
  fun r hr hs => ⟨r, hr, rfl, hs⟩

theorem keepsPaid_patchExp (s : List NRecord) (pid g : String) :
    keepsPaid s (patchExp s pid g) := by
  intro r hr hs
  by_cases hid : r.id = pid
  · exact ⟨{ r with expectation := g },
      List.mem_map.mpr ⟨r, hr, by simp [hid]⟩, rfl, hs⟩
  · exact ⟨r, List.mem_map.mpr ⟨r, hr, by simp [hid]⟩, rfl, hs⟩

theorem keepsPaid_append (s l : List NRecord) : keepsPaid s (s ++ l) :=
  fun r hr hs => ⟨r, List.mem_append_left l hr, rfl, hs⟩

theorem keepsPaid_runPatches (f : NRecord → NRecord)
    (hid : ∀ r, (f r).id = r.id) (hidem : ∀ r, f (f r) = f r)
    (hfst : ∀ r, (f r).status = "paid") (pages s : List NRecord) :
    keepsPaid s (runPatches f pages s) := by
  intro r hr hs
  rw [runPatches_eq_map f hid hidem]
  by_cases hc : pages.any (fun p => decide (p.id = r.id)) = true
  · exact ⟨f r, List.mem_map.mpr ⟨r, hr, by simp [hc]⟩, hid r, hfst r⟩
  · exact ⟨r, List.mem_map.mpr ⟨r, hr, by simp [hc]⟩, rfl, hs⟩

/-- The post-gate pipeline preserves paid records. -/
theorem regRest_keepsPaid (ri : RegInput) (store : List NRecord) (fl : StoreFlags) :
    keepsPaid store (regRest ri store fl).2.1 := by
  by_cases hvv : validateReg ri.name ri.email ri.start_date = []
  · unfold regRest createStep findExistingRecord
    simp [hvv]
    repeat' split
    all_goals first
      | exact keepsPaid_refl store
      | exact keepsPaid_patchExp store _ _
      | exact keepsPaid_append store _
  · unfold regRest
    simp [hvv]
    exact keepsPaid_refl store

/-- The write path preserves paid records. -/
theorem regWrite_keepsPaid (ri : RegInput) (store : List NRecord) (fl : StoreFlags) :
    keepsPaid store (regWrite ri store fl).2.1 := by
  cases hE : checkCohortAvailability store ri.cohort (some ri.start_date) fl.gateFails with
  | ok a =>
      by_cases hA : a.isAvailable = true
      · simp [regWrite, hE, hA]
        exact regRest_keepsPaid ri store fl
      · simp [regWrite, hE, hA]
        exact keepsPaid_refl store
  | error e =>
      simp [regWrite, hE]
      exact regRest_keepsPaid ri store fl

/-- The minimal webhook preserves paid records in its resulting store. -/
theorem webhookMin_keepsPaid (method : String) (pbody : Option Event)
    (store : List NRecord) (qf pf : Bool) :
    keepsPaid store (wStoreOf (webhookMainMin method pbody store qf pf) store) := by
  unfold webhookMainMin
  by_cases hm : method = "options"
  · simp only [if_pos hm, wStoreOf]
    exact keepsPaid_refl store
  · simp only [if_neg hm]
    by_cases hp2 : method ≠ "post"
    · simp only [if_pos hp2, wStoreOf]
      exact keepsPaid_refl store
    · simp only [if_neg hp2]
      cases pbody with
      | none =>
          simp only [wStoreOf]
          exact keepsPaid_refl store
      | some ev =>
          by_cases ht : ev.type ≠ "checkout.session.completed"
          · simp only [if_pos ht, wStoreOf]
            exact keepsPaid_refl store
          · simp only [if_neg ht]
            cases hobj : ev.dataObject with
            | none =>
                simp only [wStoreOf]
                exact keepsPaid_refl store
            | some s =>
                by_cases hpd : (!(s.payment_status == some "paid")) = true
                · simp only [if_pos hpd, wStoreOf]
                  exact keepsPaid_refl store
                · simp only [if_neg hpd]
                  cases hem : emailOf s with
                  | none =>
                      simp only [wStoreOf]
                      exact keepsPaid_refl store
                  | some em =>
                      by_cases hqf : qf = true
                      · simp only [if_pos hqf, wStoreOf]
                        exact keepsPaid_refl store
                      · simp only [if_neg hqf]
                        by_cases hpe :
                          (store.filter (fun r => decide (r.email = em))).isEmpty = true
                        · simp only [if_pos hpe, wStoreOf]
                          exact keepsPaid_refl store
                        · simp only [if_neg hpe]
                          by_cases hpf : pf = true
                          · simp only [if_pos hpf, wStoreOf]
                            exact keepsPaid_refl store
                          · simp only [if_neg hpf, wStoreOf]
                            exact keepsPaid_runPatches markPaidMin (fun q => rfl)
                              (fun q => rfl) (fun q => rfl) _ store

/-- The extended webhook preserves paid records in its resulting store. -/
theorem webhookExt_keepsPaid (method : String) (pbody : Option Event)
    (store : List NRecord) (qf pf : Bool) :
    keepsPaid store (wStoreOf (webhookMainExt method pbody store qf pf) store) := by
  unfold webhookMainExt
  by_cases hm : method = "options"
  · simp only [if_pos hm, wStoreOf]
    exact keepsPaid_refl store
  · simp only [if_neg hm]
    by_cases hp2 : method ≠ "post"
    · simp only [if_pos hp2, wStoreOf]
      exact keepsPaid_refl store
    · simp only [if_neg hp2]
      cases pbody with
      | none =>
          simp only [wStoreOf]
          exact keepsPaid_refl store
      | some ev =>
          by_cases ht : ev.type ≠ "checkout.session.completed"
          · simp only [if_pos ht, wStoreOf]
            exact keepsPaid_refl store
          · simp only [if_neg ht]
            cases hobj : ev.dataObject with
            | none =>
                simp only [wStoreOf]
                exact keepsPaid_refl store
            | some s =>
                by_cases hpd : (!(s.payment_status == some "paid")) = true
                · simp only [if_pos hpd, wStoreOf]
                  exact keepsPaid_refl store
                · simp only [if_neg hpd]
                  cases hem : emailOf s with
                  | none =>
                      simp only [wStoreOf]
                      exact keepsPaid_refl store
                  | some em =>
                      by_cases hqf : qf = true
                      · simp only [if_pos hqf, wStoreOf]
                        exact keepsPaid_refl store
                      · simp only [if_neg hqf]
                        by_cases hpe :
                          (store.filter (fun r => decide (r.email = em))).isEmpty = true
                        · simp only [if_pos hpe, wStoreOf]
                          exact keepsPaid_refl store
                        · simp only [if_neg hpe]
                          by_cases hpf : pf = true
                          · simp only [if_pos hpf, wStoreOf]
                            exact keepsPaid_refl store
                          · simp only [if_neg hpf, wStoreOf]
                            exact keepsPaid_runPatches (markPaidStripe (mkStripeData s))
                              (fun q => rfl) (markPaidStripe_idem _) (fun q => rfl) _ store

/-- C7: no handler run moves a status backwards: every record paid
before a registration request, a minimal webhook request or an extended
webhook request is still present with status paid after it; the
registration path writes status only on creation, the webhook paths
write only paid. -/
theorem status_forward_only :
    (∀ (method : String) (data : RegData) (store : List NRecord) (fl : StoreFlags),
      keepsPaid store (mainReg method data store fl).2.1) ∧
    (∀ (method : String) (pbody : Option Event) (store : List NRecord) (qf pf : Bool),
      keepsPaid store (wStoreOf (webhookMainMin method pbody store qf pf) store)) ∧
    (∀ (method : String) (pbody : Option Event) (store : List NRecord) (qf pf : Bool),
      keepsPaid store (wStoreOf (webhookMainExt method pbody store qf pf) store)) := by
  refine ⟨?_, ?_, ?_⟩
  · intro method data store fl
    unfold mainReg
    by_cases hm : method = "options"
    · simp [hm]
      exact keepsPaid_refl store
    · simp [hm]
      by_cases hc : jsTruthyS (jsOr data.checkAvailHyphen data.checkAvailCamel) = true
      · simp [hc]
        cases hE : checkCohortAvailability store
            ((jsOr data.checkAvailHyphen data.checkAvailCamel).getD "")
            (jsOr data.checkDateHyphen data.checkDateCamel) fl.gateFails with
        | ok a => simp [hE]; exact keepsPaid_refl store
        | error e => simp [hE]; exact keepsPaid_refl store
      · simp [hc]
        exact regWrite_keepsPaid (normReg data) store fl
  · intro method pbody store qf pf
    exact webhookMin_keepsPaid method pbody store qf pf
  · intro method pbody store qf pf
    exact webhookExt_keepsPaid method pbody store qf pf

/-- C7 witness: a concrete paid record survives a concrete registration
request with its id and paid status. -/
theorem status_forward_only_witness :
    ∃ r2, r2 ∈ (mainReg "get" emptyData [paidRecX] okFlags).2.1 ∧
      r2.id = paidRecX.id ∧ r2.status = "paid" :=
  status_forward_only.1 "get" emptyData [paidRecX] okFlags paidRecX (by decide) rfl

theorem runPatches_eq_map_mask (f : NRecord → NRecord)
    (hid : ∀ r, (f r).id = r.id) (hidem : ∀ r, f (f r) = f r)
    (pages store : List NRecord) :
    runPatches f pages store = store.map (patchMask f pages) :=
  runPatches_eq_map f hid hidem pages store

theorem patchMask_id (f : NRecord → NRecord) (hid : ∀ r, (f r).id = r.id)
    (pages : List NRecord) (r : NRecord) : (patchMask f pages r).id = r.id := by
  unfold patchMask
  split <;> simp [hid]

theorem patchMask_email (f : NRecord → NRecord) (hemail : ∀ r, (f r).email = r.email)
    (pages : List NRecord) (r : NRecord) : (patchMask f pages r).email = r.email := by
  unfold patchMask
  split <;> simp [hemail]

/-- Filtering by email after the patch loop finds the images of exactly
the pages found before it, because patches preserve the email. -/
theorem filter_after_patches (f : NRecord → NRecord)
    (hemail : ∀ r, (f r).email = r.email) (em : String) (store : List NRecord) :
    (store.map (patchMask f (store.filter (fun r => decide (r.email = em))))).filter
        (fun r => decide (r.email = em))
      = (store.filter (fun r => decide (r.email = em))).map
          (patchMask f (store.filter (fun r => decide (r.email = em)))) := by
  rw [List.filter_map]
  congr 1
  apply List.filter_congr
  intro x _
  simp [Function.comp, patchMask_email f hemail]

theorem any_id_map_patchMask (f : NRecord → NRecord) (hid : ∀ r, (f r).id = r.id)
    (pages l : List NRecord) (x : NRecord) :
    (l.map (patchMask f pages)).any (fun p => decide (p.id = x.id))
      = l.any (fun p => decide (p.id = x.id)) := by
  rw [List.any_map]
  have hfun : ((fun p => decide (p.id = x.id)) ∘ patchMask f pages)
      = (fun p : NRecord => decide (p.id = x.id)) := by
    funext q
    simp [Function.comp, patchMask_id f hid]
  rw [hfun]

/-- Running the patch loop a second time, over the pages found in the
already patched store, changes nothing. -/
theorem runPatches_second_fix (f : NRecord → NRecord)
    (hid : ∀ r, (f r).id = r.id) (hidem : ∀ r, f (f r) = f r)
    (hemail : ∀ r, (f r).email = r.email) (em : String) (store : List NRecord) :
    runPatches f
        ((runPatches f (store.filter (fun r => decide (r.email = em))) store).filter
          (fun r => decide (r.email = em)))
        (runPatches f (store.filter (fun r => decide (r.email = em))) store)
      = runPatches f (store.filter (fun r => decide (r.email = em))) store := by
  have hst : runPatches f (store.filter (fun r => decide (r.email = em))) store
      = store.map (patchMask f (store.filter (fun r => decide (r.email = em)))) :=
    runPatches_eq_map_mask f hid hidem _ store
  rw [hst, filter_after_patches f hemail,
    runPatches_eq_map_mask f hid hidem
      ((store.filter (fun r => decide (r.email = em))).map
        (patchMask f (store.filter (fun r => decide (r.email = em)))))
      (store.map (patchMask f (store.filter (fun r => decide (r.email = em))))),
    List.map_map]
  apply List.map_congr_left
  intro r _
  show patchMask f
      ((store.filter (fun q => decide (q.email = em))).map
        (patchMask f (store.filter (fun q => decide (q.email = em)))))
      (patchMask f (store.filter (fun q => decide (q.email = em))) r)
    = patchMask f (store.filter (fun q => decide (q.email = em))) r
  by_cases hc : (store.filter (fun q => decide (q.email = em))).any
      (fun p => decide (p.id = r.id)) = true
  · have h1 : patchMask f (store.filter (fun q => decide (q.email = em))) r = f r :=
      if_pos hc
    rw [h1]
    show (if ((store.filter (fun q => decide (q.email = em))).map
        (patchMask f (store.filter (fun q => decide (q.email = em))))).any
          (fun p => decide (p.id = (f r).id)) = true
      then f (f r) else f r) = f r
    rw [any_id_map_patchMask f hid]
    have hcf : (store.filter (fun q => decide (q.email = em))).any
        (fun p => decide (p.id = (f r).id)) = true := by
      rw [hid r]
      exact hc
    rw [if_pos hcf, hidem r]
  · have h1 : patchMask f (store.filter (fun q => decide (q.email = em))) r = r :=
      if_neg hc
    rw [h1]
    show (if ((store.filter (fun q => decide (q.email = em))).map
        (patchMask f (store.filter (fun q => decide (q.email = em))))).any
          (fun p => decide (p.id = r.id)) = true
      then f r else r) = r
    rw [any_id_map_patchMask f hid]
    rw [if_neg hc]

/-- Evaluation of the extended webhook on a posted, paid
checkout-completion event with an extractable email: one query, then
either the zero-match acknowledgement or the patch loop over the found
pages. -/
theorem webhookExt_run (ev : Event) (s : Session) (em : String) (store : List NRecord)
    (htype : ev.type = "checkout.session.completed")
    (hobj : ev.dataObject = some s)
    (hpaid : s.payment_status = some "paid")
    (hemail : emailOf s = some em) :
    webhookMainExt "post" (some ev) store false false
      = Except.ok
          ((if (store.filter (fun r => decide (r.email = em))).isEmpty
            then WResp.success 0 em (some "no_matching_email")
                (some (WMeta.zeroMatch (mkStripeData s).sessionId))
            else WResp.success (store.filter (fun r => decide (r.email = em))).length em none
                (some (WMeta.full (mkStripeData s).sessionId
                  (stripeLinkOf (mkStripeData s).sessionId) (mkStripeData s).amountPaid
                  ((store.filter (fun r => decide (r.email = em))).map
                    (fun p => (p.id, stripeLinkOf (mkStripeData s).sessionId)))))),
           (if (store.filter (fun r => decide (r.email = em))).isEmpty then store
            else runPatches (markPaidStripe (mkStripeData s))
              (store.filter (fun r => decide (r.email = em))) store),
           WOp.queryByEmail em ::
             (store.filter (fun r => decide (r.email = em))).map
               (fun p => WOp.patchStripe p.id (mkStripeData s))) := by
  unfold webhookMainExt
  by_cases hpe : (store.filter (fun r => decide (r.email = em))).isEmpty = true
  · have hnil := List.isEmpty_iff.mp hpe
    simp [htype, hobj, hpaid, hemail, hpe, hnil]
  · simp [htype, hobj, hpaid, hemail, hpe]

/-- C8: re-processing the same paid checkout-completion event against
the store produced by its first processing changes nothing: the second
run writes the same property values to the same pages, ends in the same
store, and returns the same success response instead of an error. -/
theorem webhook_ext_idempotent :
    ∀ (ev : Event) (s : Session) (em : String) (store : List NRecord)
      (resp : WResp) (st : List NRecord) (tr : List WOp),
      ev.type = "checkout.session.completed" → ev.dataObject = some s →
      s.payment_status = some "paid" → emailOf s = some em →
      webhookMainExt "post" (some ev) store false false = Except.ok (resp, st, tr) →
      webhookMainExt "post" (some ev) st false false = Except.ok (resp, st, tr) := by
  intro ev s em store resp st tr htype hobj hpaid hemail h1
  rw [webhookExt_run ev s em store htype hobj hpaid hemail] at h1
  injection h1 with h3
  have hresp := congrArg Prod.fst h3
  have hst := congrArg (fun x : WResp × List NRecord × List WOp => x.2.1) h3
  have htr := congrArg (fun x : WResp × List NRecord × List WOp => x.2.2) h3
  simp only at hresp hst htr
  subst hresp
  subst hst
  subst htr
  by_cases hpe : (store.filter (fun r => decide (r.email = em))).isEmpty = true
  · simp only [if_pos hpe]
    rw [webhookExt_run ev s em store htype hobj hpaid hemail]
    simp only [if_pos hpe]
  · simp only [if_neg hpe]
    rw [webhookExt_run ev s em
      (runPatches (markPaidStripe (mkStripeData s))
        (store.filter (fun r => decide (r.email = em))) store) htype hobj hpaid hemail]
    have hid : ∀ r, (markPaidStripe (mkStripeData s) r).id = r.id := fun r => rfl
    have hidem := markPaidStripe_idem (mkStripeData s)
    have hemailf : ∀ r, (markPaidStripe (mkStripeData s) r).email = r.email := fun r => rfl
    have hst : runPatches (markPaidStripe (mkStripeData s))
        (store.filter (fun r => decide (r.email = em))) store
        = store.map (patchMask (markPaidStripe (mkStripeData s))
            (store.filter (fun r => decide (r.email = em)))) :=
      runPatches_eq_map_mask (markPaidStripe (mkStripeData s)) hid hidem _ _
    have hp2 : (runPatches (markPaidStripe (mkStripeData s))
          (store.filter (fun r => decide (r.email = em))) store).filter
            (fun r => decide (r.email = em))
        = (store.filter (fun r => decide (r.email = em))).map
            (patchMask (markPaidStripe (mkStripeData s))
              (store.filter (fun r => decide (r.email = em)))) := by
      rw [hst]
      exact filter_after_patches (markPaidStripe (mkStripeData s)) hemailf em store
    have hpe2 : ¬ ((runPatches (markPaidStripe (mkStripeData s))
          (store.filter (fun r => decide (r.email = em))) store).filter
            (fun r => decide (r.email = em))).isEmpty = true := by
      rw [hp2]
      intro hx
      rw [List.isEmpty_iff] at hx
      exact hpe (by rw [List.isEmpty_iff]; exact List.map_eq_nil_iff.mp hx)
    simp only [if_neg hpe2]
    have hlen : ((runPatches (markPaidStripe (mkStripeData s))
          (store.filter (fun r => decide (r.email = em))) store).filter
            (fun r => decide (r.email = em))).length
        = (store.filter (fun r => decide (r.email = em))).length := by
      rw [hp2, List.length_map]
    have hpairs : ((runPatches (markPaidStripe (mkStripeData s))
          (store.filter (fun r => decide (r.email = em))) store).filter
            (fun r => decide (r.email = em))).map
          (fun p => (p.id, stripeLinkOf (mkStripeData s).sessionId))
        = (store.filter (fun r => decide (r.email = em))).map
            (fun p => (p.id, stripeLinkOf (mkStripeData s).sessionId)) := by
      rw [hp2, List.map_map]
      apply List.map_congr_left
      intro q _
      simp [Function.comp, patchMask_id (markPaidStripe (mkStripeData s)) hid]
    have htrm : ((runPatches (markPaidStripe (mkStripeData s))
          (store.filter (fun r => decide (r.email = em))) store).filter
            (fun r => decide (r.email = em))).map
          (fun p => WOp.patchStripe p.id (mkStripeData s))
        = (store.filter (fun r => decide (r.email = em))).map
            (fun p => WOp.patchStripe p.id (mkStripeData s)) := by
      rw [hp2, List.map_map]
      apply List.map_congr_left
      intro q _
      simp [Function.comp, patchMask_id (markPaidStripe (mkStripeData s)) hid]
    have hfix := runPatches_second_fix (markPaidStripe (mkStripeData s))
      hid hidem hemailf em store
    rw [hfix, hlen, hpairs, htrm]

/-- C8 witness: the sample paid event, re-applied to the store its first
processing produced, returns the same response, store and patch trace. -/
theorem webhook_ext_idempotent_witness :
    webhookMainExt "post" (some cEvent) [cPaidRecExt] false false
      = Except.ok (cRespExt, [cPaidRecExt], cTrExt) :=
  webhook_ext_idempotent cEvent cSession "ana@x.com" [cRec] cRespExt [cPaidRecExt] cTrExt
    rfl rfl rfl rfl (by rfl)

/-- C10: whenever the extended webhook returns a response, the minimal
webhook on the same arguments and store returns a response with the same
status code, and the reported updated counts agree; the two entry points
differ only in the stored payment metadata and the extra response
metadata. -/
theorem webhook_variants_agree :
    ∀ (method : String) (pbody : Option Event) (store : List NRecord) (qf pf : Bool)
      (r : WResp) (s2 : List NRecord) (t : List WOp),
      webhookMainExt method pbody store qf pf = Except.ok (r, s2, t) →
      ∃ r2 s3 t3, webhookMainMin method pbody store qf pf = Except.ok (r2, s3, t3) ∧
        WResp.statusCode r2 = WResp.statusCode r ∧
        WResp.updatedCount r2 = WResp.updatedCount r := by
  intro method pbody store qf pf r s2 t h
  unfold webhookMainExt at h
  unfold webhookMainMin
  by_cases hm : method = "options"
  · rw [if_pos hm] at h ⊢
    injection h with h3
    have hr := congrArg Prod.fst h3
    simp only at hr
    exact ⟨WResp.noContent, store, [], rfl, by rw [← hr], by rw [← hr]⟩
  · rw [if_neg hm] at h ⊢
    by_cases hp2 : method ≠ "post"
    · rw [if_pos hp2] at h ⊢
      injection h with h3
      have hr := congrArg Prod.fst h3
      simp only at hr
      exact ⟨WResp.methodNotAllowed, store, [], rfl, by rw [← hr], by rw [← hr]⟩
    · rw [if_neg hp2] at h ⊢
      cases pbody with
      | none =>
          injection h with h3
          have hr := congrArg Prod.fst h3
          simp only at hr
          exact ⟨WResp.badBody, store, [], rfl, by rw [← hr], by rw [← hr]⟩
      | some ev =>
          simp only [] at h ⊢
          by_cases ht : ev.type ≠ "checkout.session.completed"
          · rw [if_pos ht] at h ⊢
            injection h with h3
            have hr := congrArg Prod.fst h3
            simp only at hr
            exact ⟨WResp.ignored "unhandled_event_type", store, [], rfl,
              by rw [← hr], by rw [← hr]⟩
          · rw [if_neg ht] at h ⊢
            cases hobj : ev.dataObject with
            | none =>
                rw [hobj] at h
                simp at h
            | some s =>
                simp only [hobj] at h ⊢
                by_cases hpd : (!(s.payment_status == some "paid")) = true
                · rw [if_pos hpd] at h ⊢
                  injection h with h3
                  have hr := congrArg Prod.fst h3
                  simp only at hr
                  exact ⟨WResp.ignored "not_paid", store, [], rfl,
                    by rw [← hr], by rw [← hr]⟩
                · rw [if_neg hpd] at h ⊢
                  cases hem : emailOf s with
                  | none =>
                      simp only [hem] at h ⊢
                      injection h with h3
                      have hr := congrArg Prod.fst h3
                      simp only at hr
                      exact ⟨WResp.noEmail, store, [], rfl, by rw [← hr], by rw [← hr]⟩
                  | some em =>
                      simp only [hem] at h ⊢
                      by_cases hqf : qf = true
                      · rw [if_pos hqf] at h ⊢
                        injection h with h3
                        have hr := congrArg Prod.fst h3
                        simp only at hr
                        exact ⟨WResp.storeErr, store, [WOp.queryByEmail em], rfl,
                          by rw [← hr], by rw [← hr]⟩
                      · rw [if_neg hqf] at h ⊢
                        by_cases hpe :
                          (store.filter (fun q => decide (q.email = em))).isEmpty = true
                        · rw [if_pos hpe] at h ⊢
                          injection h with h3
                          have hr := congrArg Prod.fst h3
                          simp only at hr
                          exact ⟨WResp.success 0 em (some "no_matching_email") none,
                            store, [WOp.queryByEmail em], rfl,
                            by rw [← hr]; rfl, by rw [← hr]; rfl⟩
                        · rw [if_neg hpe] at h ⊢
                          by_cases hpf : pf = true
                          · rw [if_pos hpf] at h ⊢
                            injection h with h3
                            have hr := congrArg Prod.fst h3
                            simp only at hr
                            exact ⟨WResp.storeErr, store, [WOp.queryByEmail em], rfl,
                              by rw [← hr], by rw [← hr]⟩
                          · rw [if_neg hpf] at h ⊢
                            injection h with h3
                            have hr := congrArg Prod.fst h3
                            simp only at hr
                            exact ⟨WResp.success
                                (store.filter (fun q => decide (q.email = em))).length
                                em none none,
                              runPatches markPaidMin
                                (store.filter (fun q => decide (q.email = em))) store,
                              WOp.queryByEmail em ::
                                (store.filter (fun q => decide (q.email = em))).map
                                  (fun p => WOp.patchMin p.id),
                              rfl, by rw [← hr]; rfl, by rw [← hr]; rfl⟩

/-- C10 witness: on the sample paid event the minimal webhook returns a
response agreeing with the extended one in status code and updated
count. -/
theorem webhook_variants_agree_witness :
    ∃ r2 s3 t3,
      webhookMainMin "post" (some cEvent) [cRec] false false = Except.ok (r2, s3, t3) ∧
      WResp.statusCode r2 = WResp.statusCode cRespExt ∧
      WResp.updatedCount r2 = WResp.updatedCount cRespExt :=
  webhook_variants_agree "post" (some cEvent) [cRec] false false
    cRespExt [cPaidRecExt] cTrExt (by rfl)
